import Mathlib

/-!
Shallow embedding of `Helpers/annotation_parsers.py`: a configuration-driven
VOC XML field extractor (`get_tree_item`, `parse_voc_file`), a dataset
normalizer (`adjust_frame`) and a folder-level aggregator with a file cache
(`parse_voc_folder`).

Modelling conventions:
- A parsed XML document is a tree of nodes (tag, text, children); `find`
  models `ElementTree.find` (first child with the tag) and `findall` models
  `ElementTree.findall` (all children with the tag).
- Python exceptions are modelled by the `Err` sum type and `Except`:
  the `ValueError` raised by `get_tree_item` becomes `Err.missingField`,
  the `ValueError` raised by `pandas.astype(float)` on a non-numeric string
  becomes `Err.typeConversion`, the `ValueError` raised by
  `parse_voc_folder` on an empty frame becomes `Err.emptyDataset`, and the
  `AssertionError` on a missing folder becomes `Err.inputNotFound`.
- Numbers: the `float` conversion is modelled exactly over `ℚ` on plain
  decimal literals, `astype(int)` is C truncation toward zero, and the
  relative-geometry pandas float division is modelled by `PyFloat`/`pydiv`,
  which keeps exact rationals for nonzero divisors and produces the IEEE
  non-finite results (`inf`, `-inf`, `nan`) on division by zero.
- The file system visible to `parse_voc_folder` (folder existence, the
  `os.listdir` order, each file's parsed XML root, the cache directory and
  `os.path.abspath`) is a passed-in `FS` record; the JSON schema
  configuration already loaded from `voc_conf` is the `VocTags` record.
-/

/-- Parsed XML element: tag name, text content, child elements. -/
inductive XmlNode where
  | mk (tag : String) (text : String) (children : List XmlNode)

/-- Tag name of an element. -/
def XmlNode.tag : XmlNode → String
  | .mk t _ _ => t

/-- Text content of an element (`element.text`). -/
def XmlNode.text : XmlNode → String
  | .mk _ s _ => s

/-- Child elements of an element. -/
def XmlNode.children : XmlNode → List XmlNode
  | .mk _ _ c => c

/-- Model of `ElementTree` `parent.find(tag)`: first direct child with the tag. -/
def find (parent : XmlNode) (tag : String) : Option XmlNode :=
  parent.children.find? (fun c => c.tag == tag)

/-- Model of `ElementTree` `parent.findall(tag)`: all direct children with the tag. -/
def findall (parent : XmlNode) (tag : String) : List XmlNode :=
  parent.children.filter (fun c => c.tag == tag)

/-- Errors of the pipeline, naming the Python exceptions they model. -/
inductive Err where
  | missingField (tag : String) (filePath : String)
  | typeConversion (value : String)
  | emptyDataset (absFolderPath : String)
  | inputNotFound (path : String)
deriving DecidableEq, Repr

/-- Schema mapping loaded from the `voc_conf` JSON file: the lookup tags used
by `parse_voc_file` (`tags` dictionary in the source). -/
structure VocTags where
  path : String
  sizeTag : String
  width : String
  height : String
  objectTag : String
  objectName : String
  boxTag : String
  x0 : String
  y0 : String
  x1 : String
  y1 : String

/-- One raw annotation row as appended by `parse_voc_file`:
`[image_path, name, image_width, image_height, x0, y0, x1, y1]`, all text. -/
structure RawRecord where
  imagePath : String
  objectName : String
  imageWidth : String
  imageHeight : String
  xmin : String
  ymin : String
  xmax : String
  ymax : String
deriving DecidableEq, Repr

/-- Model of `get_tree_item(parent, tag, file_path)` (single-match use,
`find_all=False`): `parent.find(tag)`, raising
`ValueError(f'Could not find "{tag}" in {file_path}')` when absent. -/
def get_tree_item (parent : XmlNode) (tag : String) (filePath : String) :
    Except Err XmlNode :=
  match find parent tag with
  | some t => .ok t
  | none => .error (.missingField tag filePath)

/-- Model of `get_tree_item(parent, tag, file_path, find_all=True)`: the
source replaces `target` with `parent.findall(tag)`, which is a list and
never `None`, so this variant never raises. -/
def get_tree_item_all (parent : XmlNode) (tag : String) : List XmlNode :=
  findall parent tag

/-- Body of the object loop in `parse_voc_file`: for one `item` of the object
list, look up the name, the box container and the four corners, and build the
row carrying the file-level image path, width and height. -/
def parseObject (item : XmlNode) (tags : VocTags)
    (filePath imagePath imageWidth imageHeight : String) :
    Except Err RawRecord :=
  match get_tree_item item tags.objectName filePath with
  | .error e => .error e
  | .ok nameNode =>
    match get_tree_item item tags.boxTag filePath with
    | .error e => .error e
    | .ok boxNode =>
      match get_tree_item boxNode tags.x0 filePath with
      | .error e => .error e
      | .ok x0Node =>
        match get_tree_item boxNode tags.y0 filePath with
        | .error e => .error e
        | .ok y0Node =>
          match get_tree_item boxNode tags.x1 filePath with
          | .error e => .error e
          | .ok x1Node =>
            match get_tree_item boxNode tags.y1 filePath with
            | .error e => .error e
            | .ok y1Node =>
              .ok { imagePath := imagePath
                    objectName := nameNode.text
                    imageWidth := imageWidth
                    imageHeight := imageHeight
                    xmin := x0Node.text
                    ymin := y0Node.text
                    xmax := x1Node.text
                    ymax := y1Node.text }

/-- The object loop of `parse_voc_file`: process the object items in document
order, appending one row each; the first failing lookup aborts the file. -/
def parseObjects (tags : VocTags)
    (filePath imagePath imageWidth imageHeight : String) :
    List XmlNode → Except Err (List RawRecord)
  | [] => .ok []
  | item :: rest =>
    match parseObject item tags filePath imagePath imageWidth imageHeight with
    | .error e => .error e
    | .ok row =>
      match parseObjects tags filePath imagePath imageWidth imageHeight rest with
      | .error e => .error e
      | .ok rows => .ok (row :: rows)

/-- Model of `parse_voc_file(file_path, voc_conf)` on the parsed document
`root`: look up the image path, the size container, width and height, then
run the object loop. The `os.path.exists` assertion and the XML/JSON parsing
are modelled upstream (the caller hands over the parsed `root` and `tags`). -/
def parse_voc_file (root : XmlNode) (tags : VocTags) (filePath : String) :
    Except Err (List RawRecord) :=
  match get_tree_item root tags.path filePath with
  | .error e => .error e
  | .ok pathNode =>
    match get_tree_item root tags.sizeTag filePath with
    | .error e => .error e
    | .ok sizeNode =>
      match get_tree_item sizeNode tags.width filePath with
      | .error e => .error e
      | .ok widthNode =>
        match get_tree_item sizeNode tags.height filePath with
        | .error e => .error e
        | .ok heightNode =>
          parseObjects tags filePath pathNode.text widthNode.text heightNode.text
            (get_tree_item_all root tags.objectTag)

/-- Result of the pandas float division used for the relative geometry: an
exact rational for a nonzero divisor, and the IEEE non-finite outcomes on a
zero divisor (`inf`, `-inf`, or `nan` for `0/0`). -/
inductive PyFloat where
  | finite (q : ℚ)
  | inf
  | negInf
  | nan
deriving DecidableEq, Repr

/-- Pandas float division of two integer columns, elementwise. -/
def pydiv (a b : Int) : PyFloat :=
  if b = 0 then
    if a = 0 then .nan else if 0 < a then .inf else .negInf
  else .finite ((a : ℚ) / (b : ℚ))

/-- Numeric value of a run of decimal digits. -/
def decimalVal (cs : List Char) : Nat :=
  cs.foldl (fun acc c => acc * 10 + (c.toNat - 48)) 0

/-- Model of the Python `float` conversion performed by `astype(float)`, on
plain decimal literals: optional sign, integer digits, optional fractional
part. Any other string (the non-numeric case) is rejected, which the source
surfaces as a `ValueError`. -/
def pyFloatOfString (s : String) : Option ℚ :=
  let cs := s.toList
  let sign : ℚ := if cs.head? = some '-' then -1 else 1
  let body :=
    if cs.head? = some '-' || cs.head? = some '+' then cs.tail else cs
  let intPart := body.takeWhile Char.isDigit
  let rest := body.dropWhile Char.isDigit
  if rest.isEmpty then
    if intPart.isEmpty then none
    else some (sign * (decimalVal intPart : ℚ))
  else if rest.head? = some '.' then
    let frac := rest.tail
    if frac.all Char.isDigit && !(intPart.isEmpty && frac.isEmpty) then
      some (sign * ((decimalVal intPart : ℚ) +
        (decimalVal frac : ℚ) / ((10 ^ frac.length : ℕ) : ℚ)))
    else none
  else none

/-- Model of `astype(int)` on a float column: C-style truncation toward zero. -/
def truncToInt (q : ℚ) : Int := Int.tdiv q.num q.den

/-- Conversion of one frame column by `astype(float).astype(int)`: every cell
is float-parsed and truncated; a non-numeric cell raises, naming the value. -/
def convertColumn : List String → Except Err (List Int)
  | [] => .ok []
  | v :: vs =>
    match pyFloatOfString v with
    | none => .error (.typeConversion v)
    | some q =>
      match convertColumn vs with
      | .error e => .error e
      | .ok l => .ok (truncToInt q :: l)

/-- Model of `frame['Object Name'].drop_duplicates()`: the distinct values in
first-appearance order (`seen` accumulates values already kept). -/
def distinctFirst (seen : List String) : List String → List String
  | [] => []
  | x :: xs =>
    if x ∈ seen then distinctFirst seen xs
    else x :: distinctFirst (x :: seen) xs

/-- Object id a name receives from the id loop of `adjust_frame`: position of
the name in the distinct list, counting from 1 (`object_id` starts at 1 and
is incremented once per distinct name). -/
def idOf : List String → String → Nat
  | [], _ => 1
  | d :: ds, nm => if d = nm then 1 else idOf ds nm + 1

/-- One row of the normalized frame returned by `adjust_frame`: the coerced
integer geometry columns plus the derived `Relative Width`,
`Relative Height` and `Object ID` columns. -/
structure NormRow where
  imagePath : String
  objectName : String
  imageWidth : Int
  imageHeight : Int
  xmin : Int
  ymin : Int
  xmax : Int
  ymax : Int
  relativeWidth : PyFloat
  relativeHeight : PyFloat
  objectId : Nat
deriving DecidableEq, Repr

/-- Rebuild the frame rows from the coerced integer columns: relative width
is `(X_max - X_min) / Image Width`, relative height is
`(Y_max - Y_min) / Image Height`, and the object id of a row is determined by
its name's position in the distinct-name list of the full `names` column. -/
def zipRows (names : List String) :
    List RawRecord → List Int → List Int → List Int → List Int → List Int →
    List Int → List NormRow
  | r :: rs, w :: ws, h :: hs, a :: x0s, b :: y0s, c :: x1s, d :: y1s =>
    { imagePath := r.imagePath
      objectName := r.objectName
      imageWidth := w
      imageHeight := h
      xmin := a
      ymin := b
      xmax := c
      ymax := d
      relativeWidth := pydiv (c - a) w
      relativeHeight := pydiv (d - b) h
      objectId := idOf (distinctFirst [] names) r.objectName } ::
      zipRows names rs ws hs x0s y0s x1s y1s
  | _, _, _, _, _, _, _ => []

/-- Model of `adjust_frame(frame, cache_file)`: coerce the six geometry and
dimension columns (`frame.columns[2:]`, in source order) to integers, derive
the relative geometry, and assign object ids over the distinct names of the
full `Object Name` column. The `to_csv` cache write and the summary print are
modelled at the folder level. -/
def adjust_frame (frame : List RawRecord) : Except Err (List NormRow) :=
  match convertColumn (frame.map (fun r => r.imageWidth)) with
  | .error e => .error e
  | .ok ws =>
    match convertColumn (frame.map (fun r => r.imageHeight)) with
    | .error e => .error e
    | .ok hs =>
      match convertColumn (frame.map (fun r => r.xmin)) with
      | .error e => .error e
      | .ok x0s =>
        match convertColumn (frame.map (fun r => r.ymin)) with
        | .error e => .error e
        | .ok y0s =>
          match convertColumn (frame.map (fun r => r.xmax)) with
          | .error e => .error e
          | .ok x1s =>
            match convertColumn (frame.map (fun r => r.ymax)) with
            | .error e => .error e
            | .ok y1s =>
              .ok (zipRows (frame.map (fun r => r.objectName)) frame
                ws hs x0s y0s x1s y1s)

/-- Model of `os.path.join` for the two-component joins the source performs. -/
def joinPath (a b : String) : String := a ++ "/" ++ b

/-- The fixed cache directory `os.path.join('..', 'Caches')`. -/
def cachesDir : String := joinPath ".." "Caches"

/-- File-system state visible to `parse_voc_folder`: whether the folder
exists, the `os.listdir(folder_path)` order, the parsed XML root of each
file (indexed by its joined path), the cache artifacts stored under each
cache path, and `os.path.abspath`. -/
structure FS where
  folderExists : Bool
  entries : List String
  fileRoot : String → XmlNode
  cacheAt : String → Option (List NormRow)
  abspath : String → String

/-- The file loop of `parse_voc_folder`: walk the `os.listdir` entries in
order, keep only names ending in `.xml`, run `parse_voc_file` on each and
extend the accumulated row list in that order. -/
def collectRecords (fs : FS) (tags : VocTags) (folderPath : String) :
    List String → Except Err (List RawRecord)
  | [] => .ok []
  | n :: ns =>
    if n.endsWith ".xml" then
      match parse_voc_file (fs.fileRoot (joinPath folderPath n)) tags
          (joinPath folderPath n) with
      | .error e => .error e
      | .ok rows =>
        match collectRecords fs tags folderPath ns with
        | .error e => .error e
        | .ok rest => .ok (rows ++ rest)
    else collectRecords fs tags folderPath ns

/-- Observable outcome of one `parse_voc_folder` call: the returned frame or
error, whether `os.listdir` ran on the source folder, and the cache artifact
stored under this call's cache path afterwards. -/
structure AggOutcome where
  result : Except Err (List NormRow)
  scanned : Bool
  cacheAfter : Option (List NormRow)

/-- Model of `parse_voc_folder(folder_path, voc_conf, cache_file)`: assert
the folder exists; if the cache artifact exists, read and return it with no
folder scan; otherwise list the folder, collect the records of the `.xml`
entries, fail on an empty frame naming `os.path.abspath(folder_path)`, and
otherwise run `adjust_frame`, which also writes the cache artifact. The
`visualization_wrapper` decorator is an opaque pass-through hook and is not
modelled. -/
def parse_voc_folder (fs : FS) (tags : VocTags)
    (folderPath cacheFile : String) : AggOutcome :=
  if fs.folderExists then
    match fs.cacheAt (joinPath cachesDir cacheFile) with
    | some t => ⟨.ok t, false, some t⟩
    | none =>
      match collectRecords fs tags folderPath fs.entries with
      | .error e => ⟨.error e, true, none⟩
      | .ok rows =>
        if rows.isEmpty then
          ⟨.error (.emptyDataset (fs.abspath folderPath)), true, none⟩
        else
          match adjust_frame rows with
          | .error e => ⟨.error e, true, none⟩
          | .ok nrows => ⟨.ok nrows, true, some nrows⟩
  else ⟨.error (.inputNotFound folderPath), false,
    fs.cacheAt (joinPath cachesDir cacheFile)⟩

/-- Update of the cache store after a call: the artifact under `key` becomes
`t`, all other cache paths are untouched. -/
def writeCache (fs : FS) (key : String) (t : Option (List NormRow)) : FS :=
  { fs with cacheAt := fun k => if k = key then t else fs.cacheAt k }

instance {ε α : Type} [DecidableEq ε] [DecidableEq α] : DecidableEq (Except ε α) :=
  fun a b =>
    match a, b with
    | .error e, .error f =>
      if h : e = f then .isTrue (by rw [h]) else .isFalse (by simp [h])
    | .ok x, .ok y =>
      if h : x = y then .isTrue (by rw [h]) else .isFalse (by simp [h])
    | .error _, .ok _ => .isFalse (by simp)
    | .ok _, .error _ => .isFalse (by simp)

/-- A raw record is numeric when each of its six geometry and dimension
cells is accepted by the float conversion. -/
def recordNumeric (r : RawRecord) : Bool :=
  (pyFloatOfString r.imageWidth).isSome && (pyFloatOfString r.imageHeight).isSome &&
  (pyFloatOfString r.xmin).isSome && (pyFloatOfString r.ymin).isSome &&
  (pyFloatOfString r.xmax).isSome && (pyFloatOfString r.ymax).isSome

/-- Whether a normalization outcome is the conversion failure
(`TypeConversionError` in the spec's taxonomy). -/
def isTypeConvErr : Except Err (List NormRow) → Bool
  | .error (.typeConversion _) => true
  | _ => false

/-- Spec-side phrasing of the aggregation scan, for comparing with the
source loop `collectRecords`. Modelled from the spec: "invokes Record
Extractor on each in directory-listing order"; it returns the per-file
record lists of the given (already suffix-selected) entries. -/
def specExtractEach (fs : FS) (tags : VocTags) (folderPath : String) :
    List String → Except Err (List (List RawRecord))
  | [] => .ok []
  | n :: ns =>
    match parse_voc_file (fs.fileRoot (joinPath folderPath n)) tags
        (joinPath folderPath n) with
    | .error e => .error e
    | .ok rows =>
      match specExtractEach fs tags folderPath ns with
      | .error e => .error e
      | .ok rest => .ok (rows :: rest)

/-- Sample schema mapping matching the usual `voc_conf.json` layout. -/
def sampleTags : VocTags :=
  ⟨"path", "size", "width", "height", "object", "name", "bndbox",
   "xmin", "ymin", "xmax", "ymax"⟩

/-- Leaf XML element with no children. -/
def leaf (tag text : String) : XmlNode := .mk tag text []

/-- Sample object entry with a name and a box container. -/
def sampleObjectNode (nm x0 y0 x1 y1 : String) : XmlNode :=
  .mk "object" ""
    [leaf "name" nm,
     .mk "bndbox" "" [leaf "xmin" x0, leaf "ymin" y0, leaf "xmax" x1, leaf "ymax" y1]]

/-- Sample well-formed document: path `img1.jpg`, size 100 by 200, a `cat`
object and a `dog` object. -/
def sampleRoot : XmlNode :=
  .mk "ann" ""
    [leaf "path" "img1.jpg",
     .mk "size" "" [leaf "width" "100", leaf "height" "200"],
     sampleObjectNode "cat" "10" "20" "50" "120",
     sampleObjectNode "dog" "30" "40" "60" "80"]

/-- Sample document whose size container lacks the width field. -/
def noWidthRoot : XmlNode :=
  .mk "ann" ""
    [leaf "path" "img1.jpg",
     .mk "size" "" [leaf "height" "200"],
     sampleObjectNode "cat" "10" "20" "50" "120"]

/-- Fallback raw record used to totalize sample per-object extraction maps. -/
def rawDefault : RawRecord := ⟨"", "", "", "", "", "", "", ""⟩

/-- Sample raw frame with classes appearing in the order cat, dog, cat. -/
def frame3 : List RawRecord :=
  [⟨"i", "cat", "100", "200", "10", "20", "50", "120"⟩,
   ⟨"i", "dog", "100", "200", "10", "20", "50", "120"⟩,
   ⟨"i", "cat", "100", "200", "10", "20", "50", "120"⟩]

/-- Normalized row of the sample cat rows of `frame3`. -/
def row3a : NormRow :=
  ⟨"i", "cat", 100, 200, 10, 20, 50, 120, .finite (2/5), .finite (1/2), 1⟩

/-- Normalized row of the sample dog row of `frame3`. -/
def row3b : NormRow :=
  ⟨"i", "dog", 100, 200, 10, 20, 50, 120, .finite (2/5), .finite (1/2), 2⟩

/-- Normalized frame of `frame3`. -/
def out3 : List NormRow := [row3a, row3b, row3a]

/-- Sample raw frame whose single row has image width `0`. -/
def frameZ : List RawRecord :=
  [⟨"img1.jpg", "cat", "0", "200", "10", "20", "50", "120"⟩]

/-- Normalized row the source produces for `frameZ`: the relative width is
the division-by-zero float infinity. -/
def rowZ : NormRow :=
  ⟨"img1.jpg", "cat", 0, 200, 10, 20, 50, 120, .inf, .finite (1/2), 1⟩

/-- Sample raw record whose image width cell is not numeric. -/
def badRecord : RawRecord := ⟨"i", "cat", "abc", "200", "10", "20", "50", "120"⟩

/-- Sample cached table (one already-normalized row). -/
def sampleTable : List NormRow := [row3a]

/-- Sample state with an existing folder, no cache artifact and one non-XML
directory entry. -/
def sampleFS : FS :=
  { folderExists := true
    entries := ["notes.txt"]
    fileRoot := fun _ => XmlNode.mk "" "" []
    cacheAt := fun _ => none
    abspath := fun p => "/abs/" ++ p }

/-- Sample state whose cache artifact for the default cache key exists. -/
def cachedFS : FS :=
  { sampleFS with
    cacheAt := fun k =>
      if k = joinPath cachesDir "data_set_labels.csv" then some sampleTable else none }

/-- Sample state with two XML annotation files and one non-XML entry in the
directory listing, and no cache artifact. -/
def scanFS : FS :=
  { folderExists := true
    entries := ["a.xml", "notes.txt", "b.xml"]
    fileRoot := fun p =>
      if p = joinPath "lbl" "a.xml" then sampleRoot
      else if p = joinPath "lbl" "b.xml" then
        XmlNode.mk "ann" ""
          [leaf "path" "img2.jpg",
           .mk "size" "" [leaf "width" "50", leaf "height" "50"],
           sampleObjectNode "dog" "0" "0" "25" "50"]
      else XmlNode.mk "" "" []
    cacheAt := fun _ => none
    abspath := fun p => "/abs/" ++ p }

/-- Normalized table the aggregation of `scanFS` produces. -/
def scanTable : List NormRow :=
  [⟨"img1.jpg", "cat", 100, 200, 10, 20, 50, 120, .finite (2/5), .finite (1/2), 1⟩,
   ⟨"img1.jpg", "dog", 100, 200, 30, 40, 60, 80, .finite (3/10), .finite (1/5), 2⟩,
   ⟨"img2.jpg", "dog", 50, 50, 0, 0, 25, 50, .finite (1/2), .finite 1, 2⟩]

/-- Sample raw frame with the numeric but non-integral cells `12.5` (image
width) and `-2.5` (minimum x), exercising truncation toward zero. -/
def frameF : List RawRecord :=
  [⟨"i", "cat", "12.5", "200", "-2.5", "20", "50", "120"⟩]

/-- A successfully extracted object row carries the file-level image path,
width and height it was given. -/
lemma parseObject_fields (item : XmlNode) (tags : VocTags)
    (filePath imagePath imageWidth imageHeight : String) (r : RawRecord)
    (h : parseObject item tags filePath imagePath imageWidth imageHeight = .ok r) :
    r.imagePath = imagePath ∧ r.imageWidth = imageWidth ∧
      r.imageHeight = imageHeight := by
  unfold parseObject at h
  repeat' split at h
  all_goals cases h
  exact ⟨rfl, rfl, rfl⟩

/-- When every object item extracts successfully, the object loop returns
exactly the per-item rows in document order. -/
lemma parseObjects_map (tags : VocTags) (fp p w h : String)
    (g : XmlNode → RawRecord) :
    ∀ l : List XmlNode,
      (∀ item ∈ l, parseObject item tags fp p w h = .ok (g item)) →
      parseObjects tags fp p w h l = .ok (l.map g)
  | [], _ => rfl
  | item :: rest, hall => by
    have h1 := hall item (List.mem_cons_self item rest)
    have h2 := parseObjects_map tags fp p w h g rest
      (fun x hx => hall x (List.mem_cons_of_mem _ hx))
    simp [parseObjects, h1, h2]

/-- Members of the distinct-name list were not in the seen accumulator. -/
lemma distinctFirst_not_mem_seen :
    ∀ (l seen : List String) (x : String),
      x ∈ distinctFirst seen l → ¬ x ∈ seen
  | [], _, x, hx => by simp [distinctFirst] at hx
  | y :: ys, seen, x, hx => by
    by_cases hy : y ∈ seen
    · simp only [distinctFirst, if_pos hy] at hx
      exact distinctFirst_not_mem_seen ys seen x hx
    · simp only [distinctFirst, if_neg hy] at hx
      rcases List.mem_cons.mp hx with rfl | hmem
      · exact hy
      · intro hxs
        exact distinctFirst_not_mem_seen ys (y :: seen) x hmem
          (List.mem_cons_of_mem y hxs)

/-- The distinct-name list has no duplicates. -/
lemma distinctFirst_nodup :
    ∀ (l seen : List String), (distinctFirst seen l).Nodup
  | [], _ => by simp [distinctFirst]
  | y :: ys, seen => by
    by_cases hy : y ∈ seen
    · simp only [distinctFirst, if_pos hy]
      exact distinctFirst_nodup ys seen
    · simp only [distinctFirst, if_neg hy]
      refine List.nodup_cons.mpr ⟨?_, distinctFirst_nodup ys (y :: seen)⟩
      intro hmem
      exact distinctFirst_not_mem_seen ys (y :: seen) y hmem
        (List.mem_cons_self y seen)

/-- Every value of the scanned column is either already seen or kept in the
distinct-name list. -/
lemma mem_distinctFirst :
    ∀ (l seen : List String) (x : String),
      x ∈ l → x ∈ seen ∨ x ∈ distinctFirst seen l
  | [], _, x, hx => absurd hx (List.not_mem_nil x)
  | y :: ys, seen, x, hx => by
    by_cases hy : y ∈ seen
    · simp only [distinctFirst, if_pos hy]
      rcases List.mem_cons.mp hx with rfl | hmem
      · exact Or.inl hy
      · exact mem_distinctFirst ys seen x hmem
    · simp only [distinctFirst, if_neg hy]
      rcases List.mem_cons.mp hx with rfl | hmem
      · exact Or.inr (List.mem_cons_self x _)
      · rcases mem_distinctFirst ys (y :: seen) x hmem with hseen | hdist
        · rcases List.mem_cons.mp hseen with rfl | h2
          · exact Or.inr (List.mem_cons_self x _)
          · exact Or.inl h2
        · exact Or.inr (List.mem_cons_of_mem y hdist)

/-- Assigned ids start at 1. -/
lemma idOf_pos : ∀ (ds : List String) (nm : String), 1 ≤ idOf ds nm
  | [], _ => le_refl 1
  | d :: ds, nm => by
    by_cases h : d = nm
    · simp [idOf, h]
    · simp only [idOf, if_neg h]
      have := idOf_pos ds nm
      omega

/-- On a duplicate-free list, two members with the same id are equal. -/
lemma idOf_inj :
    ∀ (ds : List String), ds.Nodup → ∀ a b, a ∈ ds → b ∈ ds →
      idOf ds a = idOf ds b → a = b
  | [], _, a, _, ha, _, _ => absurd ha (List.not_mem_nil a)
  | d :: ds, hnd, a, b, ha, hb, heq => by
    rcases List.nodup_cons.mp hnd with ⟨_, hnd2⟩
    by_cases hda : d = a <;> by_cases hdb : d = b
    · exact hda.symm.trans hdb
    · exfalso
      simp only [idOf, if_pos hda, if_neg hdb] at heq
      have := idOf_pos ds b
      omega
    · exfalso
      simp only [idOf, if_neg hda, if_pos hdb] at heq
      have := idOf_pos ds a
      omega
    · simp only [idOf, if_neg hda, if_neg hdb] at heq
      have ha2 : a ∈ ds := by
        rcases List.mem_cons.mp ha with rfl | h2
        · exact absurd rfl hda
        · exact h2
      have hb2 : b ∈ ds := by
        rcases List.mem_cons.mp hb with rfl | h2
        · exact absurd rfl hdb
        · exact h2
      exact idOf_inj ds hnd2 a b ha2 hb2 (Nat.add_right_cancel heq)

/-- Every row built by `zipRows` stems from a raw record, satisfies the
relative-geometry formulas over its own coerced fields, and carries the id
its name receives from the distinct-name list of the full column. -/
lemma zipRows_mem (names : List String) :
    ∀ (rs : List RawRecord) (ws hs x0s y0s x1s y1s : List Int) (row : NormRow),
      row ∈ zipRows names rs ws hs x0s y0s x1s y1s →
      (∃ r ∈ rs, row.objectName = r.objectName) ∧
      row.relativeWidth = pydiv (row.xmax - row.xmin) row.imageWidth ∧
      row.relativeHeight = pydiv (row.ymax - row.ymin) row.imageHeight ∧
      row.objectId = idOf (distinctFirst [] names) row.objectName := by
  intro rs
  induction rs with
  | nil => intro ws hs x0s y0s x1s y1s row hrow; simp [zipRows] at hrow
  | cons r rs ih =>
    intro ws hs x0s y0s x1s y1s row hrow
    cases ws with
    | nil => simp [zipRows] at hrow
    | cons w ws =>
    cases hs with
    | nil => simp [zipRows] at hrow
    | cons hh hs =>
    cases x0s with
    | nil => simp [zipRows] at hrow
    | cons a x0s =>
    cases y0s with
    | nil => simp [zipRows] at hrow
    | cons b y0s =>
    cases x1s with
    | nil => simp [zipRows] at hrow
    | cons c x1s =>
    cases y1s with
    | nil => simp [zipRows] at hrow
    | cons d y1s =>
    simp only [zipRows] at hrow
    rcases List.mem_cons.mp hrow with hEq | hMem
    · subst hEq
      exact ⟨⟨r, List.mem_cons_self r rs, rfl⟩, rfl, rfl, rfl⟩
    · obtain ⟨⟨r2, hr2, hname⟩, h1, h2, h3⟩ :=
        ih ws hs x0s y0s x1s y1s row hMem
      exact ⟨⟨r2, List.mem_cons_of_mem r hr2, hname⟩, h1, h2, h3⟩

/-- Successful normalization decomposes into six successful column
conversions followed by the row rebuild. -/
lemma adjust_frame_ok_inv (frame : List RawRecord) (out : List NormRow)
    (h : adjust_frame frame = .ok out) :
    ∃ ws hs x0s y0s x1s y1s,
      convertColumn (frame.map (fun r => r.imageWidth)) = .ok ws ∧
      convertColumn (frame.map (fun r => r.imageHeight)) = .ok hs ∧
      convertColumn (frame.map (fun r => r.xmin)) = .ok x0s ∧
      convertColumn (frame.map (fun r => r.ymin)) = .ok y0s ∧
      convertColumn (frame.map (fun r => r.xmax)) = .ok x1s ∧
      convertColumn (frame.map (fun r => r.ymax)) = .ok y1s ∧
      out = zipRows (frame.map (fun r => r.objectName)) frame ws hs x0s y0s
        x1s y1s := by
  unfold adjust_frame at h
  cases hws : convertColumn (frame.map (fun r => r.imageWidth)) with
  | error e => simp only [hws] at h; cases h
  | ok ws =>
  simp only [hws] at h
  cases hhs : convertColumn (frame.map (fun r => r.imageHeight)) with
  | error e => simp only [hhs] at h; cases h
  | ok hs =>
  simp only [hhs] at h
  cases hx0 : convertColumn (frame.map (fun r => r.xmin)) with
  | error e => simp only [hx0] at h; cases h
  | ok x0s =>
  simp only [hx0] at h
  cases hy0 : convertColumn (frame.map (fun r => r.ymin)) with
  | error e => simp only [hy0] at h; cases h
  | ok y0s =>
  simp only [hy0] at h
  cases hx1 : convertColumn (frame.map (fun r => r.xmax)) with
  | error e => simp only [hx1] at h; cases h
  | ok x1s =>
  simp only [hx1] at h
  cases hy1 : convertColumn (frame.map (fun r => r.ymax)) with
  | error e => simp only [hy1] at h; cases h
  | ok y1s =>
  simp only [hy1] at h
  cases h
  exact ⟨ws, hs, x0s, y0s, x1s, y1s, rfl, rfl, rfl, rfl, rfl, rfl, rfl⟩

/-- A column whose cells all float-parse converts to the truncated parses. -/
lemma convertColumn_ok_eq :
    ∀ vals : List String, (∀ v ∈ vals, (pyFloatOfString v).isSome) →
      convertColumn vals =
        .ok (vals.map (fun v => truncToInt ((pyFloatOfString v).getD 0)))
  | [], _ => rfl
  | v :: vs, hall => by
    have hv := hall v (List.mem_cons_self v vs)
    cases hq : pyFloatOfString v with
    | none => rw [hq] at hv; simp at hv
    | some q =>
      have ih := convertColumn_ok_eq vs
        (fun x hx => hall x (List.mem_cons_of_mem v hx))
      simp [convertColumn, hq, ih]

/-- A successfully converted column had only float-parseable cells. -/
lemma convertColumn_ok_all :
    ∀ (vals : List String) (l : List Int), convertColumn vals = .ok l →
      ∀ v ∈ vals, (pyFloatOfString v).isSome
  | [], _, _, v, hv => absurd hv (List.not_mem_nil v)
  | w :: vs, l, h, v, hv => by
    cases hq : pyFloatOfString w with
    | none => simp only [convertColumn, hq] at h; cases h
    | some q =>
      simp only [convertColumn, hq] at h
      cases hrest : convertColumn vs with
      | error e => rw [hrest] at h; cases h
      | ok l2 =>
        rcases List.mem_cons.mp hv with rfl | hmem
        · simp [hq]
        · exact convertColumn_ok_all vs l2 hrest v hmem

/-- A column containing a non-parseable cell converts to a conversion error
naming such a cell. -/
lemma convertColumn_error_of_bad :
    ∀ vals : List String, (∃ v ∈ vals, pyFloatOfString v = none) →
      ∃ v, pyFloatOfString v = none ∧
        convertColumn vals = .error (.typeConversion v)
  | [], hbad => by simp at hbad
  | v :: vs, hbad => by
    cases hq : pyFloatOfString v with
    | none => exact ⟨v, hq, by simp [convertColumn, hq]⟩
    | some q =>
      have hvs : ∃ w ∈ vs, pyFloatOfString w = none := by
        rcases hbad with ⟨w, hw, hwn⟩
        rcases List.mem_cons.mp hw with rfl | h2
        · rw [hq] at hwn; cases hwn
        · exact ⟨w, h2, hwn⟩
      obtain ⟨w, hwn, hcol⟩ := convertColumn_error_of_bad vs hvs
      refine ⟨w, hwn, ?_⟩
      simp [convertColumn, hq, hcol]

/-- The source scan loop equals the spec-side description: run the extractor
over exactly the suffix-selected entries in listing order and flatten the
per-file lists (errors propagate identically). -/
lemma collectRecords_eq_spec (fs : FS) (tags : VocTags) (fp : String) :
    ∀ names : List String,
      collectRecords fs tags fp names =
        Except.map List.flatten
          (specExtractEach fs tags fp
            (names.filter (fun n => n.endsWith ".xml")))
  | [] => rfl
  | n :: ns => by
    have ih := collectRecords_eq_spec fs tags fp ns
    by_cases hx : n.endsWith ".xml"
    · rw [List.filter_cons_of_pos (by simpa using hx)]
      cases hp : parse_voc_file (fs.fileRoot (joinPath fp n)) tags
          (joinPath fp n) with
      | error e =>
        simp [collectRecords, hx, specExtractEach, hp, Except.map]
      | ok rows =>
        cases hrest : specExtractEach fs tags fp
            (ns.filter (fun m => m.endsWith ".xml")) with
        | error e =>
          rw [hrest] at ih
          simp [collectRecords, hx, specExtractEach, hp, hrest, ih, Except.map]
        | ok rest =>
          rw [hrest] at ih
          simp [collectRecords, hx, specExtractEach, hp, hrest, ih, Except.map]
    · rw [List.filter_cons_of_neg (by simpa using hx)]
      simp [collectRecords, hx, ih]

/-- C1: for every annotation file whose required lookups succeed (image path,
size container, width, height) and whose object entries each extract to a
record (`g item`), extraction returns exactly one record per object entry in
document order, each carrying the file's shared image path, width and height;
with zero object entries the returned list is empty (`map` over `[]`), not an
error. -/
theorem c1_one_record_per_object (root : XmlNode) (tags : VocTags)
    (filePath : String) (pathNode sizeNode widthNode heightNode : XmlNode)
    (g : XmlNode → RawRecord)
    (hp : find root tags.path = some pathNode)
    (hs : find root tags.sizeTag = some sizeNode)
    (hw : find sizeNode tags.width = some widthNode)
    (hh : find sizeNode tags.height = some heightNode)
    (hobj : ∀ item ∈ get_tree_item_all root tags.objectTag,
      parseObject item tags filePath pathNode.text widthNode.text
        heightNode.text = .ok (g item)) :
    parse_voc_file root tags filePath =
      .ok ((get_tree_item_all root tags.objectTag).map g) ∧
    ((get_tree_item_all root tags.objectTag).map g).length =
      (get_tree_item_all root tags.objectTag).length ∧
    ∀ r ∈ (get_tree_item_all root tags.objectTag).map g,
      r.imagePath = pathNode.text ∧ r.imageWidth = widthNode.text ∧
        r.imageHeight = heightNode.text := by
  refine ⟨?_, by simp, ?_⟩
  · simp only [parse_voc_file, get_tree_item, hp, hs, hw, hh]
    exact parseObjects_map tags filePath pathNode.text widthNode.text
      heightNode.text g _ hobj
  · intro r hr
    rcases List.mem_map.mp hr with ⟨item, hitem, hgi⟩
    subst hgi
    exact parseObject_fields item tags filePath pathNode.text widthNode.text
      heightNode.text _ (hobj item hitem)

/-- C6: an annotation file whose size container lacks the width field makes
extraction fail with the missing-field error naming that tag and the file
path; nothing is returned (no partial record set). -/
theorem c6_missing_width_field (root sizeNode pathNode : XmlNode)
    (tags : VocTags) (filePath : String)
    (hp : find root tags.path = some pathNode)
    (hs : find root tags.sizeTag = some sizeNode)
    (hw : find sizeNode tags.width = none) :
    parse_voc_file root tags filePath =
      .error (.missingField tags.width filePath) := by
  simp only [parse_voc_file, get_tree_item, hp, hs, hw]

/-- C2: in every successfully normalized frame, each row's relative width is
the (float) quotient of its coerced box width by its coerced image width, and
likewise for the relative height. -/
theorem c2_relative_geometry (frame : List RawRecord) (out : List NormRow)
    (h : adjust_frame frame = .ok out) :
    ∀ row ∈ out,
      row.relativeWidth = pydiv (row.xmax - row.xmin) row.imageWidth ∧
      row.relativeHeight = pydiv (row.ymax - row.ymin) row.imageHeight := by
  obtain ⟨ws, hs, x0s, y0s, x1s, y1s, -, -, -, -, -, -, hout⟩ :=
    adjust_frame_ok_inv frame out h
  intro row hrow
  rw [hout] at hrow
  obtain ⟨-, h1, h2, -⟩ := zipRows_mem _ _ _ _ _ _ _ _ row hrow
  exact ⟨h1, h2⟩

/-- C3: in every successfully normalized frame, each row's id is the
1-based position of its class name in the first-appearance distinct-name
scan of the full row set (hence ids are positive and assigned sequentially
from 1 in first-appearance order, deterministically in the row order), and
two rows share an id exactly when they share a class name. -/
theorem c3_class_id_assignment (frame : List RawRecord) (out : List NormRow)
    (h : adjust_frame frame = .ok out) :
    (∀ row ∈ out, 1 ≤ row.objectId ∧
      row.objectId =
        idOf (distinctFirst [] (frame.map (fun r => r.objectName)))
          row.objectName) ∧
    (∀ r1 ∈ out, ∀ r2 ∈ out,
      (r1.objectName = r2.objectName ↔ r1.objectId = r2.objectId)) := by
  obtain ⟨ws, hs, x0s, y0s, x1s, y1s, -, -, -, -, -, -, hout⟩ :=
    adjust_frame_ok_inv frame out h
  have hprops : ∀ row ∈ out,
      row.objectName ∈ distinctFirst [] (frame.map (fun r => r.objectName)) ∧
      row.objectId =
        idOf (distinctFirst [] (frame.map (fun r => r.objectName)))
          row.objectName := by
    intro row hrow
    rw [hout] at hrow
    obtain ⟨⟨r, hr, hname⟩, -, -, hid⟩ := zipRows_mem _ _ _ _ _ _ _ _ row hrow
    have hmem : row.objectName ∈ frame.map (fun r => r.objectName) := by
      rw [hname]
      exact List.mem_map_of_mem _ hr
    rcases mem_distinctFirst _ [] _ hmem with h0 | h1
    · exact absurd h0 (List.not_mem_nil _)
    · exact ⟨h1, hid⟩
  constructor
  · intro row hrow
    have hid := (hprops row hrow).2
    refine ⟨?_, hid⟩
    rw [hid]
    exact idOf_pos _ _
  · intro r1 hr1 r2 hr2
    obtain ⟨hm1, hid1⟩ := hprops r1 hr1
    obtain ⟨hm2, hid2⟩ := hprops r2 hr2
    constructor
    · intro hname
      rw [hid1, hid2, hname]
    · intro hidEq
      rw [hid1, hid2] at hidEq
      exact idOf_inj _ (distinctFirst_nodup _ _) _ _ hm1 hm2 hidEq

/-- C5 counterexample: on a raw frame whose row has image width `0`,
normalization does not fail with any error — it returns a frame whose
relative width is the division-by-zero float infinity, refuting the claim
that a zero image dimension raises a fatal `GeometryError`. -/
theorem c5_zero_dimension_counterexample :
    adjust_frame frameZ = .ok [rowZ] ∧ rowZ.relativeWidth = PyFloat.inf :=
  ⟨by with_unfolding_all rfl, rfl⟩

/-- C5 amended: normalization does not guard zero image dimensions; it
succeeds, and any row with a zero image width (or height) receives a
non-finite relative width (or height): the float infinities or NaN from the
unguarded division, never an error. -/
theorem c5_amended_zero_dimension_nonfinite (frame : List RawRecord)
    (out : List NormRow) (h : adjust_frame frame = .ok out) :
    ∀ row ∈ out,
      (row.imageWidth = 0 →
        row.relativeWidth = .inf ∨ row.relativeWidth = .negInf ∨
          row.relativeWidth = .nan) ∧
      (row.imageHeight = 0 →
        row.relativeHeight = .inf ∨ row.relativeHeight = .negInf ∨
          row.relativeHeight = .nan) := by
  obtain ⟨ws, hs, x0s, y0s, x1s, y1s, -, -, -, -, -, -, hout⟩ :=
    adjust_frame_ok_inv frame out h
  intro row hrow
  rw [hout] at hrow
  obtain ⟨-, h1, h2, -⟩ := zipRows_mem _ _ _ _ _ _ _ _ row hrow
  constructor
  · intro hw0
    rw [h1, hw0]
    by_cases hz : row.xmax - row.xmin = 0
    · right; right; simp [pydiv, hz]
    · by_cases hpos : 0 < row.xmax - row.xmin
      · left; simp [pydiv, hz, hpos]
      · right; left; simp [pydiv, hz, hpos]
  · intro hh0
    rw [h2, hh0]
    by_cases hz : row.ymax - row.ymin = 0
    · right; right; simp [pydiv, hz]
    · by_cases hpos : 0 < row.ymax - row.ymin
      · left; simp [pydiv, hz, hpos]
      · right; left; simp [pydiv, hz, hpos]

/-- C8: normalization coerces every geometry and dimension cell from text to
integer: if any row has a non-numeric cell it fails with the type-conversion
error, and conversely a successful normalization certifies that every such
cell of every row was numeric. -/
theorem c8_type_conversion (frame : List RawRecord) :
    ((∃ r ∈ frame, recordNumeric r = false) →
      isTypeConvErr (adjust_frame frame) = true) ∧
    (∀ out, adjust_frame frame = .ok out →
      ∀ r ∈ frame, recordNumeric r = true) := by
  constructor
  · intro hbad
    by_cases hW : ∃ v ∈ frame.map (fun r => r.imageWidth),
        pyFloatOfString v = none
    · obtain ⟨v, hvn, hcol⟩ := convertColumn_error_of_bad _ hW
      simp [adjust_frame, hcol, isTypeConvErr]
    · have hWa : ∀ v ∈ frame.map (fun r => r.imageWidth),
          (pyFloatOfString v).isSome := by
        intro v hv
        by_contra hn
        exact hW ⟨v, hv, Option.not_isSome_iff_eq_none.mp hn⟩
      have hWok := convertColumn_ok_eq _ hWa
      by_cases hH : ∃ v ∈ frame.map (fun r => r.imageHeight),
          pyFloatOfString v = none
      · obtain ⟨v, hvn, hcol⟩ := convertColumn_error_of_bad _ hH
        simp [adjust_frame, hWok, hcol, isTypeConvErr]
      · have hHa : ∀ v ∈ frame.map (fun r => r.imageHeight),
            (pyFloatOfString v).isSome := by
          intro v hv
          by_contra hn
          exact hH ⟨v, hv, Option.not_isSome_iff_eq_none.mp hn⟩
        have hHok := convertColumn_ok_eq _ hHa
        by_cases hX0 : ∃ v ∈ frame.map (fun r => r.xmin),
            pyFloatOfString v = none
        · obtain ⟨v, hvn, hcol⟩ := convertColumn_error_of_bad _ hX0
          simp [adjust_frame, hWok, hHok, hcol, isTypeConvErr]
        · have hX0a : ∀ v ∈ frame.map (fun r => r.xmin),
              (pyFloatOfString v).isSome := by
            intro v hv
            by_contra hn
            exact hX0 ⟨v, hv, Option.not_isSome_iff_eq_none.mp hn⟩
          have hX0ok := convertColumn_ok_eq _ hX0a
          by_cases hY0 : ∃ v ∈ frame.map (fun r => r.ymin),
              pyFloatOfString v = none
          · obtain ⟨v, hvn, hcol⟩ := convertColumn_error_of_bad _ hY0
            simp [adjust_frame, hWok, hHok, hX0ok, hcol, isTypeConvErr]
          · have hY0a : ∀ v ∈ frame.map (fun r => r.ymin),
                (pyFloatOfString v).isSome := by
              intro v hv
              by_contra hn
              exact hY0 ⟨v, hv, Option.not_isSome_iff_eq_none.mp hn⟩
            have hY0ok := convertColumn_ok_eq _ hY0a
            by_cases hX1 : ∃ v ∈ frame.map (fun r => r.xmax),
                pyFloatOfString v = none
            · obtain ⟨v, hvn, hcol⟩ := convertColumn_error_of_bad _ hX1
              simp [adjust_frame, hWok, hHok, hX0ok, hY0ok, hcol, isTypeConvErr]
            · have hX1a : ∀ v ∈ frame.map (fun r => r.xmax),
                  (pyFloatOfString v).isSome := by
                intro v hv
                by_contra hn
                exact hX1 ⟨v, hv, Option.not_isSome_iff_eq_none.mp hn⟩
              have hX1ok := convertColumn_ok_eq _ hX1a
              by_cases hY1 : ∃ v ∈ frame.map (fun r => r.ymax),
                  pyFloatOfString v = none
              · obtain ⟨v, hvn, hcol⟩ := convertColumn_error_of_bad _ hY1
                simp [adjust_frame, hWok, hHok, hX0ok, hY0ok, hX1ok, hcol,
                  isTypeConvErr]
              · exfalso
                obtain ⟨r, hr, hfalse⟩ := hbad
                have w1 := hWa _ (List.mem_map_of_mem _ hr)
                have w2 := hHa _ (List.mem_map_of_mem _ hr)
                have w3 := hX0a _ (List.mem_map_of_mem _ hr)
                have w4 := hY0a _ (List.mem_map_of_mem _ hr)
                have w5 := hX1a _ (List.mem_map_of_mem _ hr)
                have w6 : (pyFloatOfString r.ymax).isSome := by
                  by_contra hn
                  exact hY1 ⟨r.ymax, List.mem_map_of_mem _ hr,
                    Option.not_isSome_iff_eq_none.mp hn⟩
                simp [recordNumeric, w1, w2, w3, w4, w5, w6] at hfalse
  · intro out hok r hr
    obtain ⟨ws, hs, x0s, y0s, x1s, y1s, h1, h2, h3, h4, h5, h6, -⟩ :=
      adjust_frame_ok_inv frame out hok
    have w1 := convertColumn_ok_all _ _ h1 _ (List.mem_map_of_mem _ hr)
    have w2 := convertColumn_ok_all _ _ h2 _ (List.mem_map_of_mem _ hr)
    have w3 := convertColumn_ok_all _ _ h3 _ (List.mem_map_of_mem _ hr)
    have w4 := convertColumn_ok_all _ _ h4 _ (List.mem_map_of_mem _ hr)
    have w5 := convertColumn_ok_all _ _ h5 _ (List.mem_map_of_mem _ hr)
    have w6 := convertColumn_ok_all _ _ h6 _ (List.mem_map_of_mem _ hr)
    simp [recordNumeric, w1, w2, w3, w4, w5, w6]

/-- C10: a raw frame whose geometry and dimension cells are all numeric —
including non-integral decimals such as `12.5` — is not rejected:
normalization succeeds and every cell is float-parsed and truncated toward
zero to an integer (`truncToInt` of the parse) before the relative-geometry
quotients are taken over those integers. -/
theorem c10_nonintegral_numeric_truncated (frame : List RawRecord)
    (h : ∀ r ∈ frame, recordNumeric r = true) :
    adjust_frame frame =
      .ok (zipRows (frame.map (fun r => r.objectName)) frame
        (frame.map (fun r => truncToInt ((pyFloatOfString r.imageWidth).getD 0)))
        (frame.map (fun r => truncToInt ((pyFloatOfString r.imageHeight).getD 0)))
        (frame.map (fun r => truncToInt ((pyFloatOfString r.xmin).getD 0)))
        (frame.map (fun r => truncToInt ((pyFloatOfString r.ymin).getD 0)))
        (frame.map (fun r => truncToInt ((pyFloatOfString r.xmax).getD 0)))
        (frame.map (fun r => truncToInt ((pyFloatOfString r.ymax).getD 0)))) := by
  have hnum : ∀ r ∈ frame,
      (pyFloatOfString r.imageWidth).isSome ∧
      (pyFloatOfString r.imageHeight).isSome ∧
      (pyFloatOfString r.xmin).isSome ∧ (pyFloatOfString r.ymin).isSome ∧
      (pyFloatOfString r.xmax).isSome ∧ (pyFloatOfString r.ymax).isSome := by
    intro r hr
    have hrn := h r hr
    simp [recordNumeric] at hrn
    tauto
  have hW := convertColumn_ok_eq (frame.map (fun r => r.imageWidth)) (by
    intro v hv
    obtain ⟨r, hr, rfl⟩ := List.mem_map.mp hv
    exact (hnum r hr).1)
  have hH := convertColumn_ok_eq (frame.map (fun r => r.imageHeight)) (by
    intro v hv
    obtain ⟨r, hr, rfl⟩ := List.mem_map.mp hv
    exact (hnum r hr).2.1)
  have hX0 := convertColumn_ok_eq (frame.map (fun r => r.xmin)) (by
    intro v hv
    obtain ⟨r, hr, rfl⟩ := List.mem_map.mp hv
    exact (hnum r hr).2.2.1)
  have hY0 := convertColumn_ok_eq (frame.map (fun r => r.ymin)) (by
    intro v hv
    obtain ⟨r, hr, rfl⟩ := List.mem_map.mp hv
    exact (hnum r hr).2.2.2.1)
  have hX1 := convertColumn_ok_eq (frame.map (fun r => r.xmax)) (by
    intro v hv
    obtain ⟨r, hr, rfl⟩ := List.mem_map.mp hv
    exact (hnum r hr).2.2.2.2.1)
  have hY1 := convertColumn_ok_eq (frame.map (fun r => r.ymax)) (by
    intro v hv
    obtain ⟨r, hr, rfl⟩ := List.mem_map.mp hv
    exact (hnum r hr).2.2.2.2.2)
  simp only [adjust_frame, hW, hH, hX0, hY0, hX1, hY1, List.map_map,
    Function.comp_def]

/-- C4: with the folder present, a call finding an existing cache artifact
for its cache key returns that artifact unchanged, with no folder scan and
the artifact untouched; consequently a second call with the same cache key
right after any successful call (without deleting the artifact) returns the
identical table and performs no file-system scan of the source folder. -/
theorem c4_cache_hit_and_idempotence (fs : FS) (tags : VocTags)
    (folderPath cacheFile : String) (hex : fs.folderExists = true) :
    (∀ t, fs.cacheAt (joinPath cachesDir cacheFile) = some t →
      parse_voc_folder fs tags folderPath cacheFile = ⟨.ok t, false, some t⟩) ∧
    (∀ t, (parse_voc_folder fs tags folderPath cacheFile).result = .ok t →
      parse_voc_folder
        (writeCache fs (joinPath cachesDir cacheFile)
          (parse_voc_folder fs tags folderPath cacheFile).cacheAfter)
        tags folderPath cacheFile = ⟨.ok t, false, some t⟩) := by
  have hhit : ∀ t, fs.cacheAt (joinPath cachesDir cacheFile) = some t →
      parse_voc_folder fs tags folderPath cacheFile = ⟨.ok t, false, some t⟩ := by
    intro t ht
    rw [parse_voc_folder, if_pos hex, ht]
  refine ⟨hhit, ?_⟩
  intro t ht
  have houter : parse_voc_folder fs tags folderPath cacheFile =
      ⟨.ok t, (parse_voc_folder fs tags folderPath cacheFile).scanned,
        some t⟩ := by
    rw [parse_voc_folder, if_pos hex] at ht ⊢
    cases hc : fs.cacheAt (joinPath cachesDir cacheFile) with
    | some t0 =>
      rw [hc] at ht
      simp at ht
      simp [ht]
    | none =>
      rw [hc] at ht
      cases hcr : collectRecords fs tags folderPath fs.entries with
      | error e => rw [hcr] at ht; simp at ht
      | ok rows =>
        rw [hcr] at ht
        by_cases hemp : rows = []
        · simp [hemp] at ht
        · simp only [List.isEmpty_eq_true, hemp, if_false, reduceCtorEq,
            if_neg] at ht
          cases had : adjust_frame rows with
          | error e => rw [had] at ht; simp at ht
          | ok nrows =>
            rw [had] at ht
            simp at ht
            simp [had, ht, hemp]
  rw [houter]
  have h2 : (writeCache fs (joinPath cachesDir cacheFile)
      (some t)).folderExists = true := hex
  have h3 : (writeCache fs (joinPath cachesDir cacheFile)
      (some t)).cacheAt (joinPath cachesDir cacheFile) = some t := by
    simp [writeCache]
  rw [parse_voc_folder, if_pos h2, h3]

/-- C7: with the folder present and no cache artifact, an aggregation whose
file scan produces zero rows fails with the empty-dataset error naming the
folder's resolved absolute path, rather than returning an empty dataset. -/
theorem c7_empty_dataset_error (fs : FS) (tags : VocTags)
    (folderPath cacheFile : String) (hex : fs.folderExists = true)
    (hmiss : fs.cacheAt (joinPath cachesDir cacheFile) = none)
    (hzero : collectRecords fs tags folderPath fs.entries = .ok []) :
    parse_voc_folder fs tags folderPath cacheFile =
      ⟨.error (.emptyDataset (fs.abspath folderPath)), true, none⟩ := by
  rw [parse_voc_folder, if_pos hex, hmiss, hzero]
  rfl

/-- C9: with the folder present and no cache artifact, aggregation selects
exactly the directory entries ending in `.xml`, runs the extractor on each in
directory-listing order, concatenates the per-file record lists in that
order, and feeds the concatenation to the empty check and normalization. -/
theorem c9_selects_maps_concatenates (fs : FS) (tags : VocTags)
    (folderPath cacheFile : String) (hex : fs.folderExists = true)
    (hmiss : fs.cacheAt (joinPath cachesDir cacheFile) = none) :
    parse_voc_folder fs tags folderPath cacheFile =
      match Except.map List.flatten
          (specExtractEach fs tags folderPath
            (fs.entries.filter (fun n => n.endsWith ".xml"))) with
      | .error e => ⟨.error e, true, none⟩
      | .ok rows =>
        if rows.isEmpty then
          ⟨.error (.emptyDataset (fs.abspath folderPath)), true, none⟩
        else
          match adjust_frame rows with
          | .error e => ⟨.error e, true, none⟩
          | .ok nrows => ⟨.ok nrows, true, some nrows⟩ := by
  rw [parse_voc_folder, if_pos hex, hmiss,
    collectRecords_eq_spec fs tags folderPath fs.entries]

/-- Witness for C1 at a concrete two-object document: both records are
returned in document order with the shared path, width and height. -/
theorem c1_one_record_per_object_witness :
    parse_voc_file sampleRoot sampleTags "f.xml" =
      .ok [⟨"img1.jpg", "cat", "100", "200", "10", "20", "50", "120"⟩,
           ⟨"img1.jpg", "dog", "100", "200", "30", "40", "60", "80"⟩] := by
  have h := c1_one_record_per_object sampleRoot sampleTags "f.xml"
    (leaf "path" "img1.jpg")
    (XmlNode.mk "size" "" [leaf "width" "100", leaf "height" "200"])
    (leaf "width" "100") (leaf "height" "200")
    (fun item => (parseObject item sampleTags "f.xml" "img1.jpg" "100"
      "200").toOption.getD rawDefault)
    rfl rfl rfl rfl (by decide)
  rw [h.1]
  with_unfolding_all rfl

/-- Witness for C6 at a concrete document lacking the width field. -/
theorem c6_missing_width_field_witness :
    parse_voc_file noWidthRoot sampleTags "bad.xml" =
      .error (.missingField "width" "bad.xml") :=
  c6_missing_width_field noWidthRoot (XmlNode.mk "size" "" [leaf "height" "200"])
    (leaf "path" "img1.jpg") sampleTags "bad.xml" rfl rfl rfl

/-- Witness for C2 at the spec's concrete row: image 100 by 200 with box
(10,20,50,120) receives relative width 2/5 = 0.40 and relative height
1/2 = 0.50. -/
theorem c2_relative_geometry_witness :
    adjust_frame frame3 = .ok out3 ∧
    row3a.relativeWidth = pydiv (row3a.xmax - row3a.xmin) row3a.imageWidth ∧
    row3a.relativeHeight = pydiv (row3a.ymax - row3a.ymin) row3a.imageHeight ∧
    row3a.relativeWidth = PyFloat.finite (2/5) ∧
    row3a.relativeHeight = PyFloat.finite (1/2) := by
  have hok : adjust_frame frame3 = .ok out3 := by with_unfolding_all rfl
  have h := c2_relative_geometry frame3 out3 hok row3a
    (List.mem_cons_self row3a [row3b, row3a])
  exact ⟨hok, h.1, h.2, rfl, rfl⟩

/-- Witness for C3 at a concrete cat, dog, cat frame: cat gets id 1, dog
gets id 2, and equal ids coincide with equal names. -/
theorem c3_class_id_assignment_witness :
    adjust_frame frame3 = .ok out3 ∧
    row3a.objectId = 1 ∧ row3b.objectId = 2 ∧
    (row3a.objectName = row3b.objectName ↔ row3a.objectId = row3b.objectId) ∧
    1 ≤ row3a.objectId := by
  have hok : adjust_frame frame3 = .ok out3 := by with_unfolding_all rfl
  have h := c3_class_id_assignment frame3 out3 hok
  refine ⟨hok, rfl, rfl, ?_, ?_⟩
  · exact h.2 row3a (List.mem_cons_self row3a [row3b, row3a]) row3b
      (List.mem_cons_of_mem row3a (List.mem_cons_self row3b [row3a]))
  · exact (h.1 row3a (List.mem_cons_self row3a [row3b, row3a])).1

/-- Witness for the amended C5 at the concrete zero-width frame. -/
theorem c5_amended_zero_dimension_nonfinite_witness :
    rowZ.relativeWidth = PyFloat.inf ∨ rowZ.relativeWidth = PyFloat.negInf ∨
      rowZ.relativeWidth = PyFloat.nan := by
  have hok : adjust_frame frameZ = .ok [rowZ] := by with_unfolding_all rfl
  exact ((c5_amended_zero_dimension_nonfinite frameZ [rowZ] hok) rowZ
    (List.mem_cons_self rowZ [])).1 rfl

/-- Witness for C8: a frame with the non-numeric width cell `abc` fails with
the conversion error, and a successfully normalized frame certifies its rows
numeric. -/
theorem c8_type_conversion_witness :
    isTypeConvErr (adjust_frame [badRecord]) = true ∧
    recordNumeric ⟨"i", "cat", "100", "200", "10", "20", "50", "120"⟩ = true := by
  constructor
  · exact (c8_type_conversion [badRecord]).1 (by decide)
  · exact (c8_type_conversion frame3).2 out3 (by with_unfolding_all rfl)
      ⟨"i", "cat", "100", "200", "10", "20", "50", "120"⟩
      (List.mem_cons_self _ _)

/-- Witness for C10: the numeric non-integral cells `12.5` and `-2.5` are
accepted and truncated toward zero to 12 and -2. -/
theorem c10_nonintegral_numeric_truncated_witness :
    adjust_frame frameF =
      .ok [⟨"i", "cat", 12, 200, -2, 20, 50, 120, PyFloat.finite (13/3),
           PyFloat.finite (1/2), 1⟩] := by
  have h := c10_nonintegral_numeric_truncated frameF (by decide)
  rw [h]
  with_unfolding_all rfl

/-- Witness for C4 at a concrete state with an existing cache artifact: the
call and the follow-up call both return the artifact without scanning. -/
theorem c4_cache_hit_and_idempotence_witness :
    parse_voc_folder cachedFS sampleTags "lbl" "data_set_labels.csv" =
      ⟨.ok sampleTable, false, some sampleTable⟩ ∧
    parse_voc_folder
      (writeCache cachedFS (joinPath cachesDir "data_set_labels.csv")
        (parse_voc_folder cachedFS sampleTags "lbl"
          "data_set_labels.csv").cacheAfter)
      sampleTags "lbl" "data_set_labels.csv" =
      ⟨.ok sampleTable, false, some sampleTable⟩ := by
  have h := c4_cache_hit_and_idempotence cachedFS sampleTags "lbl"
    "data_set_labels.csv" rfl
  have h1 := h.1 sampleTable (by with_unfolding_all rfl)
  exact ⟨h1, h.2 sampleTable (by rw [h1])⟩

/-- Witness for C7 at a concrete folder with no XML entry. -/
theorem c7_empty_dataset_error_witness :
    parse_voc_folder sampleFS sampleTags "lbl" "c.csv" =
      ⟨.error (.emptyDataset "/abs/lbl"), true, none⟩ := by
  have h := c7_empty_dataset_error sampleFS sampleTags "lbl" "c.csv" rfl rfl
    (by with_unfolding_all rfl)
  rw [h]
  with_unfolding_all rfl

/-- Witness for C9 at a concrete listing with two XML files and one other
entry: the two files' records are extracted in listing order, concatenated
and normalized. -/
theorem c9_selects_maps_concatenates_witness :
    parse_voc_folder scanFS sampleTags "lbl" "data.csv" =
      ⟨.ok scanTable, true, some scanTable⟩ := by
  have h := c9_selects_maps_concatenates scanFS sampleTags "lbl" "data.csv"
    rfl rfl
  rw [h]
  with_unfolding_all rfl
